import Mathlib

/-!
Verification of the w3infra billing core and selected handlers.

The billing Usage Integrator and Billing Instruction Handler live in
`billing/lib/space-billing-queue.js`, which is exercised here only through its
test suite (`src/billing/test/lib/space-billing-queue.js`); the implementation
itself is reconstructed from the specification (sections 3, 4.1 and 4.2).
Timestamps are modelled as integer milliseconds, sizes and usage as
arbitrary-precision integers (the source uses `BigInt`).
-/

namespace W3Infra

/-- Modelled from the spec: `SpaceDiffRecord` (section 3) of
`billing/lib/space-billing-queue.js`, which is not part of the provided
sources. `change` is a signed byte delta, `receiptAt` the authoritative
effective time in ms, `cause` a content-addressed identifier used only for
deterministic tie-breaking (modelled as `Nat`). -/
structure SpaceDiff where
  provider : String
  space : String
  customer : String
  subscription : String
  cause : Nat
  change : Int
  receiptAt : Int
  insertedAt : Int
deriving DecidableEq, Repr

/-- Modelled from the spec: key of a `SpaceSnapshotRecord` — one logical
snapshot per `(provider, space, recordedAt)` (section 3). -/
structure SnapKey where
  provider : String
  space : String
  recordedAt : Int
deriving DecidableEq, Repr

/-- Modelled from the spec: key of a `UsageRecord` — upsert keyed by
`(customer, provider, space, from)` (section 3). -/
structure UsageKey where
  customer : String
  provider : String
  space : String
  from' : Int
deriving DecidableEq, Repr

/-- Modelled from the spec: `BillingInstruction` (section 3): compute usage
for a space over the half-open interval `[from, to)`. -/
structure SpaceBillingInstruction where
  customer : String
  account : String
  product : String
  provider : String
  space : String
  from' : Int
  to' : Int
deriving DecidableEq, Repr

section KeyedStore

variable {κ ν : Type} [DecidableEq κ]

/-- Point read from a keyed store (spec section 6: `get` returns the record
for the key or absent). -/
def storeGet (k : κ) : List (κ × ν) → Option ν
  | [] => none
  | e :: es => if e.1 = k then some e.2 else storeGet k es

/-- Remove every record held under key `k`. -/
def storeDropKey (k : κ) : List (κ × ν) → List (κ × ν)
  | [] => []
  | e :: es => if e.1 = k then storeDropKey k es else e :: storeDropKey k es

/-- Idempotent upsert by key (spec section 6 / glossary: a repeated write of
the same key and value has no observable effect, and a write never leaves a
duplicate record under its key). -/
def storePut (k : κ) (v : ν) (s : List (κ × ν)) : List (κ × ν) :=
  (k, v) :: storeDropKey k s

end KeyedStore

/-- Modelled from the spec: the ledger stores consumed by the handler
(section 6): the diff store (append-only), the snapshot store and the usage
store (both idempotent keyed upsert stores). Snapshot values are sizes,
usage values are byte-time integrals. -/
structure Stores where
  diffs : List SpaceDiff
  snapshots : List (SnapKey × Int)
  usages : List (UsageKey × Int)
deriving DecidableEq, Repr

/-- Modelled from the spec: diff store range query (section 6):
`list(provider, space, from, to)` returns the diffs of the space with
`from ≤ receiptAt < to`. -/
def listDiffs (provider space : String) (f t : Int) (l : List SpaceDiff) : List SpaceDiff :=
  l.filter fun d =>
    decide (d.provider = provider) && decide (d.space = space) &&
    decide (f ≤ d.receiptAt) && decide (d.receiptAt < t)

/-- Modelled from the spec: deterministic sort order of the integrator
(section 4.1 step 1): ascending `receiptAt`, ties broken by `cause`. -/
def diffLE (a b : SpaceDiff) : Prop :=
  a.receiptAt < b.receiptAt ∨ (a.receiptAt = b.receiptAt ∧ a.cause ≤ b.cause)

instance : DecidableRel diffLE := fun a b => by
  unfold diffLE; infer_instance

/-- Modelled from the spec: the integration loop of the Usage Integrator
(section 4.1 steps 2–4): walk the diffs accumulating
`usage += runningSize × elapsed`, then close the interval at `t`. -/
def usageLoop (t : Int) (boundary runningSize usage : Int) :
    List SpaceDiff → Int × Int
  | [] => (usage + runningSize * (t - boundary), runningSize)
  | d :: ds =>
    usageLoop t d.receiptAt (runningSize + d.change)
      (usage + runningSize * (d.receiptAt - boundary)) ds

/-- Modelled from the spec: the Usage Integrator (section 4.1) of
`billing/lib/space-billing-queue.js`: sort the period's diffs, integrate
size over `[f, t)`, return `(usage, endSize)`. Pure, total, exact integer
arithmetic. -/
def calculatePeriodUsage (startSize : Int) (diffs : List SpaceDiff) (f t : Int) :
    Int × Int :=
  usageLoop t f startSize 0 (List.insertionSort diffLE diffs)

/-- Modelled from the spec: the handler's failure surfaces that are reachable
in this model (section 7). `StorageFailure` is transport-level and has no
counterpart in a state-passing model; the design notes record that the source
does not specially handle a negative end size. -/
inductive BillingError where
  | missingSnapshot
  | invalidInstruction
deriving DecidableEq, Repr

/-- Modelled from the spec: the Billing Instruction Handler
`handleSpaceBillingInstruction` (section 4.2) of
`billing/lib/space-billing-queue.js`: validate the instruction, read the
snapshot at `from` (absent → `MissingSnapshot`, no write), query the diff
store for `[from, to)`, run the integrator, then idempotently upsert the
usage record and the snapshot at `to`. -/
def handleSpaceBillingInstruction (ins : SpaceBillingInstruction) (st : Stores) :
    Except BillingError (Int × Int) × Stores :=
  if ins.from' < ins.to' then
    match storeGet ⟨ins.provider, ins.space, ins.from'⟩ st.snapshots with
    | none => (.error .missingSnapshot, st)
    | some startSize =>
      let ds := listDiffs ins.provider ins.space ins.from' ins.to' st.diffs
      let r := calculatePeriodUsage startSize ds ins.from' ins.to'
      (.ok r,
        { st with
          usages := storePut ⟨ins.customer, ins.provider, ins.space, ins.from'⟩ r.1 st.usages
          snapshots := storePut ⟨ins.provider, ins.space, ins.to'⟩ r.2 st.snapshots })
  else (.error .invalidInstruction, st)

/-- Sum of the `change` fields of a diff list (the net size delta). -/
def changeSum : List SpaceDiff → Int
  | [] => 0
  | d :: ds => d.change + changeSum ds

/-- Time-weighted sum `Σ change × (t − receiptAt)` over a diff list: the
contribution of the diffs to the usage integral that closes at `t`. -/
def weightedSum (t : Int) : List SpaceDiff → Int
  | [] => 0
  | d :: ds => d.change * (t - d.receiptAt) + weightedSum t ds

/-- The diffs of `(provider, space)` with `f ≤ receiptAt ≤ x`: everything of
the period that has become effective by time `x` inclusive. -/
def listDiffsThrough (provider space : String) (f x : Int) (l : List SpaceDiff) :
    List SpaceDiff :=
  l.filter fun d =>
    decide (d.provider = provider) && decide (d.space = space) &&
    decide (f ≤ d.receiptAt) && decide (d.receiptAt ≤ x)

/-- The running size of the space at time `x` within a period starting at `f`
with size `s`: the spec's section 3 invariant asserts this is never
negative on a consistent ledger. -/
def sizeAt (provider space : String) (s f : Int) (l : List SpaceDiff) (x : Int) : Int :=
  s + changeSum (listDiffsThrough provider space f x l)

/-- The usage the integrator computes for `(provider, space)` over `[f, t)`
from start size `s` and the ledger `l`, going through the handler's diff
range query. -/
def usageAt (provider space : String) (s f : Int) (l : List SpaceDiff) (t : Int) : Int :=
  (calculatePeriodUsage s (listDiffs provider space f t l) f t).1

/-- One GiB in bytes, the diff magnitude of the test scenarios
(`1024 * 1024 * 1024` in `src/billing/test/lib/space-billing-queue.js`). -/
def gib : Int := 1073741824

/-! ### Queue message lambda handlers

Embedding of `handleFilecoinSubmitMessage` (`src/unnamed/part_005`, the
filecoin submit queue lambda) and `handlePieceOfferMessage`
(`src/filecoin/functions/handle-piece-offer-message.js`). The external
library calls (`decodeMessage`, the `@web3-storage/filecoin-api` storefront
event handlers) are out of this repository and are passed in as parameters;
the handlers' observable operations are recorded in an effect trace. -/

/-- An HTTP-style lambda response `{statusCode, body}`. -/
structure SQSResponse where
  statusCode : Nat
  body : String
deriving DecidableEq, Repr

/-- Observable operations a queue lambda performs after the record-count
guard: decoding the one message body, and invoking the downstream
storefront event handler (which wraps the store / service operations). -/
inductive QueueEffect where
  | decodedMessage (body : String)
  | storefrontEvent (name : String)
deriving DecidableEq, Repr

/-- `handleFilecoinSubmitMessage` from `src/unnamed/part_005` lines 94–125:
reject any SQS event that does not carry exactly one record with a 400
before decoding anything; otherwise decode the record, build the piece
store context and call the storefront event handler, mapping its error to
500 and its success to 200. `decodeM` stands for
`decodeMessage` of `../queue/filecoin-submit-queue.js` and `eventsM` for
`storefrontEvents.handleFilecoinSubmitMessage`; both are external to the
sources and are parameters of the model. -/
def handleFilecoinSubmitMessage {ρ : Type}
    (decodeM : String → ρ) (eventsM : ρ → Except String String)
    (records : List String) : SQSResponse × List QueueEffect :=
  if h : records.length ≠ 1 then
    (⟨400, "Expected 1 sqsEvent per invocation but received " ++
        toString records.length⟩, [])
  else
    let body := records.get ⟨0, by omega⟩
    let record := decodeM body
    match eventsM record with
    | .error e => (⟨500, e⟩,
        [.decodedMessage body, .storefrontEvent "handleFilecoinSubmitMessage"])
    | .ok ok => (⟨200, ok⟩,
        [.decodedMessage body, .storefrontEvent "handleFilecoinSubmitMessage"])

/-- `handlePieceOfferMessage` from
`src/filecoin/functions/handle-piece-offer-message.js` lines 25–82: the same
single-record guard returning 400 before any decode, then decode, build the
aggregator service context and call the storefront event handler, mapping
error to 500 and success to 200. `decodeM` stands for `decodeMessage` of
`../queue/piece-offer-queue.js` and `eventsM` for
`storefrontEvents.handlePieceOfferMessage`, both external. -/
def handlePieceOfferMessage {ρ : Type}
    (decodeM : String → ρ) (eventsM : ρ → Except String String)
    (records : List String) : SQSResponse × List QueueEffect :=
  if h : records.length ≠ 1 then
    (⟨400, "Expected 1 sqsEvent per invocation but received " ++
        toString records.length⟩, [])
  else
    let body := records.get ⟨0, by omega⟩
    let record := decodeM body
    match eventsM record with
    | .error e => (⟨500, e⟩,
        [.decodedMessage body, .storefrontEvent "handlePieceOfferMessage"])
    | .ok ok => (⟨200, ok⟩,
        [.decodedMessage body, .storefrontEvent "handlePieceOfferMessage"])

/-! ### Delegations table -/

/-- A ucanto delegation as the delegations table sees it
(`src/upload-api/tables/delegations.js`): its CID and the DIDs of audience
and issuer, all rendered as strings by `createDelegationItem`. -/
structure Delegation where
  cid : String
  audience : String
  issuer : String
deriving DecidableEq, Repr

/-- `createDelegationItem` from `src/upload-api/tables/delegations.js`
lines 96–102: the DynamoDB item `{cid, audience, issuer}` for a
delegation. -/
structure DelegationItem where
  cid : String
  audience : String
  issuer : String
deriving DecidableEq, Repr

def createDelegationItem (d : Delegation) : DelegationItem :=
  ⟨d.cid, d.audience, d.issuer⟩

/-- A command sent to the DynamoDB client by the delegations table. -/
inductive DynamoCommand where
  | batchWriteItem (tableName : String) (items : List DelegationItem)
deriving DecidableEq, Repr

/-- The externally observable state touched by `putMany`: the delegations
bucket (keyed by CID; `bucket.put` stores the CAR encoding of the
delegation, modelled by the delegation value itself) and the log of
commands sent to DynamoDB. -/
structure DelegationsTableState where
  bucket : List (String × Delegation)
  sent : List DynamoCommand
deriving DecidableEq, Repr

/-- `writeDelegations`/`writeEntries` from
`src/upload-api/tables/delegations.js` lines 128–147: put each delegation's
CAR bytes into the bucket under its CID. -/
def writeDelegations (bucket : List (String × Delegation))
    (delegations : List Delegation) : List (String × Delegation) :=
  delegations.foldl (fun b d => storePut d.cid d b) bucket

/-- `putMany` from `src/upload-api/tables/delegations.js` lines 42–60:
return immediately when given zero delegations; otherwise write every
delegation to the bucket and send one `BatchWriteItemCommand` with a put
request per delegation. -/
def putMany (tableName : String) (delegations : List Delegation)
    (st : DelegationsTableState) : DelegationsTableState :=
  if delegations.length = 0 then st
  else
    { bucket := writeDelegations st.bucket delegations
      sent := st.sent ++
        [DynamoCommand.batchWriteItem tableName (delegations.map createDelegationItem)] }

/-! ### Keyed-store lemmas -/

section KeyedStoreLemmas

variable {κ ν : Type} [DecidableEq κ] (k k' : κ) (v : ν) (s : List (κ × ν))

lemma storeGet_storeDropKey_ne (h : k ≠ k') :
    storeGet k' (storeDropKey k s) = storeGet k' s := by
  induction s with
  | nil => rfl
  | cons e es ih =>
    by_cases he : e.1 = k
    · rw [storeDropKey, if_pos he, ih, storeGet, if_neg (he ▸ h.symm ∘ Eq.symm)]
    · rw [storeDropKey, if_neg he, storeGet, storeGet]
      by_cases he' : e.1 = k'
      · rw [if_pos he', if_pos he']
      · rw [if_neg he', if_neg he', ih]

lemma storeDropKey_idem :
    storeDropKey k (storeDropKey k s) = storeDropKey k s := by
  induction s with
  | nil => rfl
  | cons e es ih =>
    by_cases he : e.1 = k
    · rw [storeDropKey, if_pos he, ih]
    · rw [storeDropKey, if_neg he, storeDropKey, if_neg he, ih]

lemma storeGet_storePut_same : storeGet k (storePut k v s) = some v := by
  rw [storePut, storeGet, if_pos rfl]

lemma storeGet_storePut_ne (h : k ≠ k') :
    storeGet k' (storePut k v s) = storeGet k' s := by
  rw [storePut, storeGet, if_neg h, storeGet_storeDropKey_ne _ _ _ h]

lemma storePut_idem : storePut k v (storePut k v s) = storePut k v s := by
  simp only [storePut]
  have h : storeDropKey k ((k, v) :: storeDropKey k s)
      = storeDropKey k (storeDropKey k s) := by
    simp [storeDropKey]
  rw [h, storeDropKey_idem]

end KeyedStoreLemmas

/-! ### Closed form of the usage integral

Abel summation turns the integration loop into a permutation-invariant
closed form: `usage = startSize × (t − f) + Σ change × (t − receiptAt)` and
`endSize = startSize + Σ change`. -/

lemma usageLoop_closed (t : Int) :
    ∀ (l : List SpaceDiff) (b r u : Int),
      usageLoop t b r u l = (u + r * (t - b) + weightedSum t l, r + changeSum l) := by
  intro l
  induction l with
  | nil =>
    intro b r u
    rw [usageLoop, weightedSum, changeSum]
    simp only [Prod.mk.injEq]
    constructor <;> ring
  | cons d ds ih =>
    intro b r u
    rw [usageLoop, ih, weightedSum, changeSum]
    simp only [Prod.mk.injEq]
    constructor <;> ring

lemma changeSum_perm {l₁ l₂ : List SpaceDiff} (h : l₁.Perm l₂) :
    changeSum l₁ = changeSum l₂ := by
  induction h with
  | nil => rfl
  | cons d _ ih => rw [changeSum, changeSum, ih]
  | swap d₁ d₂ l => rw [changeSum, changeSum, changeSum, changeSum]; ring
  | trans _ _ ih₁ ih₂ => rw [ih₁, ih₂]

lemma weightedSum_perm (t : Int) {l₁ l₂ : List SpaceDiff} (h : l₁.Perm l₂) :
    weightedSum t l₁ = weightedSum t l₂ := by
  induction h with
  | nil => rfl
  | cons d _ ih => rw [weightedSum, weightedSum, ih]
  | swap d₁ d₂ l => rw [weightedSum, weightedSum, weightedSum, weightedSum]; ring
  | trans _ _ ih₁ ih₂ => rw [ih₁, ih₂]

lemma calculatePeriodUsage_closed (s : Int) (l : List SpaceDiff) (f t : Int) :
    calculatePeriodUsage s l f t = (s * (t - f) + weightedSum t l, s + changeSum l) := by
  rw [calculatePeriodUsage, usageLoop_closed,
    changeSum_perm (List.perm_insertionSort diffLE l),
    weightedSum_perm t (List.perm_insertionSort diffLE l)]
  simp only [Prod.mk.injEq]
  constructor <;> ring

lemma listDiffs_cons (P S : String) (f t : Int) (d : SpaceDiff) (ds : List SpaceDiff) :
    listDiffs P S f t (d :: ds) =
      if d.provider = P ∧ d.space = S ∧ f ≤ d.receiptAt ∧ d.receiptAt < t
      then d :: listDiffs P S f t ds else listDiffs P S f t ds := by
  by_cases h : d.provider = P ∧ d.space = S ∧ f ≤ d.receiptAt ∧ d.receiptAt < t
  · obtain ⟨h1, h2, h3, h4⟩ := h
    rw [if_pos ⟨h1, h2, h3, h4⟩]
    simp [listDiffs, List.filter_cons, h1, h2, h3, h4]
  · rw [if_neg h]
    have hb : (decide (d.provider = P) && decide (d.space = S) &&
        decide (f ≤ d.receiptAt) && decide (d.receiptAt < t)) = false := by
      rw [Bool.eq_false_iff]
      intro hc
      exact h (by simpa [Bool.and_eq_true, decide_eq_true_eq, and_assoc] using hc)
    simp [listDiffs, List.filter_cons, hb]

lemma listDiffsThrough_cons (P S : String) (f x : Int) (d : SpaceDiff) (ds : List SpaceDiff) :
    listDiffsThrough P S f x (d :: ds) =
      if d.provider = P ∧ d.space = S ∧ f ≤ d.receiptAt ∧ d.receiptAt ≤ x
      then d :: listDiffsThrough P S f x ds else listDiffsThrough P S f x ds := by
  by_cases h : d.provider = P ∧ d.space = S ∧ f ≤ d.receiptAt ∧ d.receiptAt ≤ x
  · obtain ⟨h1, h2, h3, h4⟩ := h
    rw [if_pos ⟨h1, h2, h3, h4⟩]
    simp [listDiffsThrough, List.filter_cons, h1, h2, h3, h4]
  · rw [if_neg h]
    have hb : (decide (d.provider = P) && decide (d.space = S) &&
        decide (f ≤ d.receiptAt) && decide (d.receiptAt ≤ x)) = false := by
      rw [Bool.eq_false_iff]
      intro hc
      exact h (by simpa [Bool.and_eq_true, decide_eq_true_eq, and_assoc] using hc)
    simp [listDiffsThrough, List.filter_cons, hb]

lemma listDiffs_append (P S : String) (f t : Int) (l l' : List SpaceDiff) :
    listDiffs P S f t (l ++ l') = listDiffs P S f t l ++ listDiffs P S f t l' := by
  simp [listDiffs, List.filter_append]

/-- Advancing the end of the interval by one millisecond adds one
millisecond of the running size reached at the old end. -/
lemma weightedSum_step (P S : String) (f t : Int) (l : List SpaceDiff) :
    weightedSum (t + 1) (listDiffs P S f (t + 1) l)
      = weightedSum t (listDiffs P S f t l) + changeSum (listDiffsThrough P S f t l) := by
  induction l with
  | nil => simp [listDiffs, listDiffsThrough, weightedSum, changeSum]
  | cons d ds ih =>
    rw [listDiffs_cons, listDiffs_cons, listDiffsThrough_cons]
    by_cases hp : d.provider = P
    · by_cases hs : d.space = S
      · by_cases hf : f ≤ d.receiptAt
        · rcases lt_trichotomy d.receiptAt t with hlt | heq | hgt
          · rw [if_pos ⟨hp, hs, hf, by omega⟩, if_pos ⟨hp, hs, hf, hlt⟩,
              if_pos ⟨hp, hs, hf, le_of_lt hlt⟩, weightedSum, weightedSum, changeSum, ih]
            ring
          · rw [if_pos ⟨hp, hs, hf, by omega⟩,
              if_neg (fun hc => absurd hc.2.2.2 (by omega)),
              if_pos ⟨hp, hs, hf, le_of_eq heq⟩, weightedSum, changeSum, ih, heq]
            ring
          · rw [if_neg (fun hc => absurd hc.2.2.2 (by omega)),
              if_neg (fun hc => absurd hc.2.2.2 (by omega)),
              if_neg (fun hc => absurd hc.2.2.2 (by omega)), ih]
        · rw [if_neg (fun hc => absurd hc.2.2.1 hf), if_neg (fun hc => absurd hc.2.2.1 hf),
            if_neg (fun hc => absurd hc.2.2.1 hf), ih]
      · rw [if_neg (fun hc => absurd hc.2.1 hs), if_neg (fun hc => absurd hc.2.1 hs),
          if_neg (fun hc => absurd hc.2.1 hs), ih]
    · rw [if_neg (fun hc => absurd hc.1 hp), if_neg (fun hc => absurd hc.1 hp),
        if_neg (fun hc => absurd hc.1 hp), ih]

lemma usageAt_succ (P S : String) (s f : Int) (l : List SpaceDiff) (t : Int) :
    usageAt P S s f l (t + 1) = usageAt P S s f l t + sizeAt P S s f l t := by
  simp only [usageAt, calculatePeriodUsage_closed, sizeAt]
  rw [weightedSum_step]
  ring

lemma usageAt_le_add (P S : String) (s f t₁ : Int) (l : List SpaceDiff) :
    ∀ n : Nat, (∀ x : Int, x < t₁ + n → 0 ≤ sizeAt P S s f l x) →
      usageAt P S s f l t₁ ≤ usageAt P S s f l (t₁ + n)
  | 0, _ => by simp
  | n + 1, h => by
    have hsize : 0 ≤ sizeAt P S s f l (t₁ + n) := h _ (by push_cast; omega)
    have ih := usageAt_le_add P S s f t₁ l n
      (fun x hx => h x (by push_cast at hx ⊢; omega))
    have harg : t₁ + ((n + 1 : Nat) : Int) = (t₁ + n) + 1 := by push_cast; ring
    rw [harg, usageAt_succ]
    linarith

/-- Full evaluation of the handler on the success path, in the closed form
of the integral. -/
lemma handleSpaceBillingInstruction_success (ins : SpaceBillingInstruction) (st : Stores)
    (s0 : Int) (h1 : ins.from' < ins.to')
    (h2 : storeGet ⟨ins.provider, ins.space, ins.from'⟩ st.snapshots = some s0) :
    handleSpaceBillingInstruction ins st =
      (.ok (s0 * (ins.to' - ins.from')
              + weightedSum ins.to' (listDiffs ins.provider ins.space ins.from' ins.to' st.diffs),
            s0 + changeSum (listDiffs ins.provider ins.space ins.from' ins.to' st.diffs)),
        { st with
          usages := storePut ⟨ins.customer, ins.provider, ins.space, ins.from'⟩
            (s0 * (ins.to' - ins.from')
              + weightedSum ins.to' (listDiffs ins.provider ins.space ins.from' ins.to' st.diffs))
            st.usages
          snapshots := storePut ⟨ins.provider, ins.space, ins.to'⟩
            (s0 + changeSum (listDiffs ins.provider ins.space ins.from' ins.to' st.diffs))
            st.snapshots }) := by
  simp only [handleSpaceBillingInstruction, if_pos h1, h2, calculatePeriodUsage_closed]

/-! ### Claim theorems -/

/-- C1: for every billing instruction and every fixed ledger state, invoking
`handleSpaceBillingInstruction` twice leaves exactly the same usage record
and the same snapshot record in the stores as invoking it once: the second
invocation overwrites with identical values and creates no duplicate
records (the resulting store states are equal on the nose). -/
theorem handleSpaceBillingInstruction_idempotent
    (ins : SpaceBillingInstruction) (st : Stores) :
    (handleSpaceBillingInstruction ins (handleSpaceBillingInstruction ins st).2).2
      = (handleSpaceBillingInstruction ins st).2 := by
  by_cases hlt : ins.from' < ins.to'
  · rcases hsnap : storeGet (⟨ins.provider, ins.space, ins.from'⟩ : SnapKey) st.snapshots
      with _ | s0
    · simp [handleSpaceBillingInstruction, hlt, hsnap]
    · have hne : (⟨ins.provider, ins.space, ins.to'⟩ : SnapKey)
          ≠ ⟨ins.provider, ins.space, ins.from'⟩ := by
        intro hc
        rw [SnapKey.mk.injEq] at hc
        omega
      rw [handleSpaceBillingInstruction_success ins st s0 hlt hsnap]
      rw [handleSpaceBillingInstruction_success ins _ s0 hlt
        (by rw [storeGet_storePut_ne _ _ _ _ hne]; exact hsnap)]
      simp [storePut_idem]
  · simp [handleSpaceBillingInstruction, hlt]

/-- C2: for every start size and every diff set (the empty one included),
the end size the Usage Integrator produces — and hence the size the handler
writes to the snapshot at `to` — is the start size plus the sum of the
`change` fields of the diffs whose `receiptAt` lies in `[from, to)`. -/
theorem billing_conservation (ins : SpaceBillingInstruction) (st : Stores) (s0 : Int)
    (h1 : ins.from' < ins.to')
    (h2 : storeGet ⟨ins.provider, ins.space, ins.from'⟩ st.snapshots = some s0) :
    (calculatePeriodUsage s0
        (listDiffs ins.provider ins.space ins.from' ins.to' st.diffs)
        ins.from' ins.to').2
      = s0 + changeSum (listDiffs ins.provider ins.space ins.from' ins.to' st.diffs)
    ∧ storeGet ⟨ins.provider, ins.space, ins.to'⟩
        (handleSpaceBillingInstruction ins st).2.snapshots
      = some (s0 + changeSum (listDiffs ins.provider ins.space ins.from' ins.to' st.diffs)) := by
  constructor
  · rw [calculatePeriodUsage_closed]
  · rw [handleSpaceBillingInstruction_success ins st s0 h1 h2]
    exact storeGet_storePut_same _ _ _

theorem billing_conservation_witness :
    (calculatePeriodUsage 7
        (listDiffs "p" "sp" 0 10 [⟨"p", "sp", "c", "sub", 0, 5, 2, 0⟩]) 0 10).2
      = 7 + changeSum (listDiffs "p" "sp" 0 10 [⟨"p", "sp", "c", "sub", 0, 5, 2, 0⟩])
    ∧ storeGet ⟨"p", "sp", 10⟩
        (handleSpaceBillingInstruction ⟨"c", "a", "pr", "p", "sp", 0, 10⟩
          ⟨[⟨"p", "sp", "c", "sub", 0, 5, 2, 0⟩], [(⟨"p", "sp", 0⟩, 7)], []⟩).2.snapshots
      = some (7 + changeSum (listDiffs "p" "sp" 0 10 [⟨"p", "sp", "c", "sub", 0, 5, 2, 0⟩])) :=
  billing_conservation ⟨"c", "a", "pr", "p", "sp", 0, 10⟩
    ⟨[⟨"p", "sp", "c", "sub", 0, 5, 2, 0⟩], [(⟨"p", "sp", 0⟩, 7)], []⟩ 7
    (by decide) (by decide)

/-- C3: the billing interval is half-open on the right: a diff received
exactly at `to` is excluded from the period's computation, while with start
size `0` and a single `+1 GiB` diff received exactly at `from` the handler
records usage `1 GiB × (to − from)` — the diff at `from` is counted for the
whole interval — and writes a snapshot of size `1 GiB` at `to`. -/
theorem billing_halfOpen_boundaries
    (P S C A Pr Sub : String) (cz : Nat) (iA : Int) (f t : Int) (hft : f < t)
    (ledger : List SpaceDiff) (dEnd : SpaceDiff) (hEnd : dEnd.receiptAt = t) :
    listDiffs P S f t (ledger ++ [dEnd]) = listDiffs P S f t ledger
    ∧ (handleSpaceBillingInstruction ⟨C, A, Pr, P, S, f, t⟩
        ⟨[⟨P, S, C, Sub, cz, gib, f, iA⟩], [(⟨P, S, f⟩, 0)], []⟩).1
      = .ok (gib * (t - f), gib)
    ∧ storeGet ⟨C, P, S, f⟩
        (handleSpaceBillingInstruction ⟨C, A, Pr, P, S, f, t⟩
          ⟨[⟨P, S, C, Sub, cz, gib, f, iA⟩], [(⟨P, S, f⟩, 0)], []⟩).2.usages
      = some (gib * (t - f))
    ∧ storeGet ⟨P, S, t⟩
        (handleSpaceBillingInstruction ⟨C, A, Pr, P, S, f, t⟩
          ⟨[⟨P, S, C, Sub, cz, gib, f, iA⟩], [(⟨P, S, f⟩, 0)], []⟩).2.snapshots
      = some gib := by
  have hsnap : storeGet (⟨P, S, f⟩ : SnapKey) [(⟨P, S, f⟩, (0 : Int))] = some 0 := by
    rw [storeGet, if_pos rfl]
  have hds : listDiffs P S f t [⟨P, S, C, Sub, cz, gib, f, iA⟩] =
      [⟨P, S, C, Sub, cz, gib, f, iA⟩] := by
    rw [listDiffs_cons, if_pos ⟨rfl, rfl, le_refl f, hft⟩]
    rfl
  have heval := handleSpaceBillingInstruction_success ⟨C, A, Pr, P, S, f, t⟩
    ⟨[⟨P, S, C, Sub, cz, gib, f, iA⟩], [(⟨P, S, f⟩, 0)], []⟩ 0 hft hsnap
  rw [hds] at heval
  have husage : (0 : Int) * (t - f) + weightedSum t [⟨P, S, C, Sub, cz, gib, f, iA⟩]
      = gib * (t - f) := by
    rw [weightedSum, weightedSum]
    ring
  have hend : (0 : Int) + changeSum [⟨P, S, C, Sub, cz, gib, f, iA⟩] = gib := by
    rw [changeSum, changeSum]
    ring
  refine ⟨?_, ?_, ?_, ?_⟩
  · rw [listDiffs_append, listDiffs_cons,
      if_neg (fun hc => absurd hc.2.2.2 (by omega))]
    simp [listDiffs]
  · rw [heval]
    rw [husage, hend]
  · rw [heval]
    simp only
    rw [husage, storeGet_storePut_same]
  · rw [heval]
    simp only
    rw [hend, storeGet_storePut_same]

theorem billing_halfOpen_boundaries_witness :
    listDiffs "p" "s" 0 9 ([⟨"p", "s", "c", "x", 3, 4, 5, 0⟩] ++ [⟨"p", "s", "c", "x", 7, 2, 9, 0⟩])
      = listDiffs "p" "s" 0 9 [⟨"p", "s", "c", "x", 3, 4, 5, 0⟩]
    ∧ (handleSpaceBillingInstruction ⟨"c", "a", "pr", "p", "s", 0, 9⟩
        ⟨[⟨"p", "s", "c", "x", 1, gib, 0, 0⟩], [(⟨"p", "s", 0⟩, 0)], []⟩).1
      = .ok (gib * (9 - 0), gib)
    ∧ storeGet ⟨"c", "p", "s", 0⟩
        (handleSpaceBillingInstruction ⟨"c", "a", "pr", "p", "s", 0, 9⟩
          ⟨[⟨"p", "s", "c", "x", 1, gib, 0, 0⟩], [(⟨"p", "s", 0⟩, 0)], []⟩).2.usages
      = some (gib * (9 - 0))
    ∧ storeGet ⟨"p", "s", 9⟩
        (handleSpaceBillingInstruction ⟨"c", "a", "pr", "p", "s", 0, 9⟩
          ⟨[⟨"p", "s", "c", "x", 1, gib, 0, 0⟩], [(⟨"p", "s", 0⟩, 0)], []⟩).2.snapshots
      = some gib :=
  billing_halfOpen_boundaries "p" "s" "c" "a" "pr" "x" 1 0 0 9 (by decide)
    [⟨"p", "s", "c", "x", 3, 4, 5, 0⟩] ⟨"p", "s", "c", "x", 7, 2, 9, 0⟩ rfl

/-- C4: with start size `0`, a `+1 GiB` diff at `from` and a `−1 GiB` diff at
the exact midpoint of `[from, to)` (the interval is `[f, f + 2k)` and the
midpoint `f + k`), the handler records usage `1 GiB × (to − from) / 2` and
writes a snapshot of size `0` at `to`. -/
theorem billing_removal_midpoint
    (P S C A Pr Sub : String) (c1 c2 : Nat) (i1 i2 : Int) (f k : Int) (hk : 0 < k) :
    (handleSpaceBillingInstruction ⟨C, A, Pr, P, S, f, f + 2 * k⟩
        ⟨[⟨P, S, C, Sub, c1, gib, f, i1⟩, ⟨P, S, C, Sub, c2, -gib, f + k, i2⟩],
          [(⟨P, S, f⟩, 0)], []⟩).1
      = .ok (gib * ((f + 2 * k) - f) / 2, 0)
    ∧ storeGet ⟨C, P, S, f⟩
        (handleSpaceBillingInstruction ⟨C, A, Pr, P, S, f, f + 2 * k⟩
          ⟨[⟨P, S, C, Sub, c1, gib, f, i1⟩, ⟨P, S, C, Sub, c2, -gib, f + k, i2⟩],
            [(⟨P, S, f⟩, 0)], []⟩).2.usages
      = some (gib * ((f + 2 * k) - f) / 2)
    ∧ storeGet ⟨P, S, f + 2 * k⟩
        (handleSpaceBillingInstruction ⟨C, A, Pr, P, S, f, f + 2 * k⟩
          ⟨[⟨P, S, C, Sub, c1, gib, f, i1⟩, ⟨P, S, C, Sub, c2, -gib, f + k, i2⟩],
            [(⟨P, S, f⟩, 0)], []⟩).2.snapshots
      = some 0 := by
  have hft : f < f + 2 * k := by omega
  have hsnap : storeGet (⟨P, S, f⟩ : SnapKey) [(⟨P, S, f⟩, (0 : Int))] = some 0 := by
    rw [storeGet, if_pos rfl]
  have hds : listDiffs P S f (f + 2 * k)
        [⟨P, S, C, Sub, c1, gib, f, i1⟩, ⟨P, S, C, Sub, c2, -gib, f + k, i2⟩]
      = [⟨P, S, C, Sub, c1, gib, f, i1⟩, ⟨P, S, C, Sub, c2, -gib, f + k, i2⟩] := by
    rw [listDiffs_cons, if_pos ⟨rfl, rfl, le_refl f, hft⟩,
      listDiffs_cons,
      if_pos ⟨rfl, rfl, (by omega : f ≤ f + k), (by omega : f + k < f + 2 * k)⟩]
    rfl
  have heval := handleSpaceBillingInstruction_success ⟨C, A, Pr, P, S, f, f + 2 * k⟩
    ⟨[⟨P, S, C, Sub, c1, gib, f, i1⟩, ⟨P, S, C, Sub, c2, -gib, f + k, i2⟩],
      [(⟨P, S, f⟩, 0)], []⟩ 0 hft hsnap
  rw [hds] at heval
  have hdiv : gib * ((f + 2 * k) - f) / 2 = gib * k := by
    have h2 : (f + 2 * k) - f = 2 * k := by ring
    rw [h2]
    have h3 : gib * (2 * k) = gib * k * 2 := by ring
    rw [h3, Int.mul_ediv_cancel _ two_ne_zero]
  have husage : (0 : Int) * ((f + 2 * k) - f)
        + weightedSum (f + 2 * k)
          [⟨P, S, C, Sub, c1, gib, f, i1⟩, ⟨P, S, C, Sub, c2, -gib, f + k, i2⟩]
      = gib * k := by
    rw [weightedSum, weightedSum, weightedSum]
    ring
  have hend : (0 : Int)
        + changeSum [⟨P, S, C, Sub, c1, gib, f, i1⟩, ⟨P, S, C, Sub, c2, -gib, f + k, i2⟩]
      = 0 := by
    rw [changeSum, changeSum, changeSum]
    ring
  refine ⟨?_, ?_, ?_⟩
  · rw [heval, hdiv]
    rw [husage, hend]
  · rw [heval]
    simp only
    rw [husage, hdiv, storeGet_storePut_same]
  · rw [heval]
    simp only
    rw [hend, storeGet_storePut_same]

theorem billing_removal_midpoint_witness :
    (handleSpaceBillingInstruction ⟨"c", "a", "pr", "p", "s", 0, 0 + 2 * 5⟩
        ⟨[⟨"p", "s", "c", "x", 1, gib, 0, 0⟩, ⟨"p", "s", "c", "x", 2, -gib, 0 + 5, 0⟩],
          [(⟨"p", "s", 0⟩, 0)], []⟩).1
      = .ok (gib * ((0 + 2 * 5) - 0) / 2, 0)
    ∧ storeGet ⟨"c", "p", "s", 0⟩
        (handleSpaceBillingInstruction ⟨"c", "a", "pr", "p", "s", 0, 0 + 2 * 5⟩
          ⟨[⟨"p", "s", "c", "x", 1, gib, 0, 0⟩, ⟨"p", "s", "c", "x", 2, -gib, 0 + 5, 0⟩],
            [(⟨"p", "s", 0⟩, 0)], []⟩).2.usages
      = some (gib * ((0 + 2 * 5) - 0) / 2)
    ∧ storeGet ⟨"p", "s", 0 + 2 * 5⟩
        (handleSpaceBillingInstruction ⟨"c", "a", "pr", "p", "s", 0, 0 + 2 * 5⟩
          ⟨[⟨"p", "s", "c", "x", 1, gib, 0, 0⟩, ⟨"p", "s", "c", "x", 2, -gib, 0 + 5, 0⟩],
            [(⟨"p", "s", 0⟩, 0)], []⟩).2.snapshots
      = some 0 :=
  billing_removal_midpoint "p" "s" "c" "a" "pr" "x" 1 2 0 0 0 5 (by decide)

/-- C5 (counterexample): usage is not monotone in the interval's end for
every fixed start size and diff set: a single `−1` diff at the period start
with start size `0` drives the running size negative, and extending the
interval then strictly decreases the computed usage. -/
theorem usage_monotone_counterexample :
    (0 : Int) < 1 ∧ (1 : Int) ≤ 2 ∧
    ¬ (usageAt "p" "s" 0 0 [⟨"p", "s", "c", "x", 0, -1, 0, 0⟩] 1
        ≤ usageAt "p" "s" 0 0 [⟨"p", "s", "c", "x", 0, -1, 0, 0⟩] 2) := by
  refine ⟨by decide, by decide, ?_⟩
  decide

/-- C5 (amended): with start size and diff set held fixed, usage is
non-decreasing when the interval is extended forward, provided the running
size stays nonnegative throughout (the spec's section 3 ledger invariant
that size is `≥ 0` at every point in time): for all `to₁ ≤ to₂` with
`from < to₁`, usage over `[from, to₁)` is at most usage over
`[from, to₂)`. -/
theorem usage_monotone_of_nonneg_size (P S : String) (s f t₁ t₂ : Int)
    (l : List SpaceDiff) (hf : f < t₁) (h12 : t₁ ≤ t₂)
    (hsize : ∀ x : Int, x < t₂ → 0 ≤ sizeAt P S s f l x) :
    usageAt P S s f l t₁ ≤ usageAt P S s f l t₂ := by
  obtain ⟨n, hn⟩ : ∃ n : Nat, t₂ = t₁ + (n : Int) := ⟨(t₂ - t₁).toNat, by omega⟩
  subst hn
  exact usageAt_le_add P S s f t₁ l n hsize

theorem usage_monotone_of_nonneg_size_witness :
    usageAt "p" "s" 5 0 [] 1 ≤ usageAt "p" "s" 5 0 [] 3 :=
  usage_monotone_of_nonneg_size "p" "s" 5 0 1 3 [] (by decide) (by decide)
    (fun x _ => by norm_num [sizeAt, listDiffsThrough, changeSum])

/-- C6: the Usage Integrator computes the same usage and the same end size
on any two diff sequences that are permutations of each other — in
particular on sequences differing only in the relative order of diffs with
identical `receiptAt`, so the tie-break order never affects the result. -/
theorem calculatePeriodUsage_perm_invariant (s f t : Int)
    {l₁ l₂ : List SpaceDiff} (h : l₁.Perm l₂) :
    calculatePeriodUsage s l₁ f t = calculatePeriodUsage s l₂ f t := by
  rw [calculatePeriodUsage_closed, calculatePeriodUsage_closed,
    changeSum_perm h, weightedSum_perm t h]

theorem calculatePeriodUsage_perm_invariant_witness :
    calculatePeriodUsage 0
        [⟨"p", "s", "c", "x", 1, 5, 4, 0⟩, ⟨"p", "s", "c", "x", 2, -3, 4, 0⟩] 0 10
      = calculatePeriodUsage 0
        [⟨"p", "s", "c", "x", 2, -3, 4, 0⟩, ⟨"p", "s", "c", "x", 1, 5, 4, 0⟩] 0 10 :=
  calculatePeriodUsage_perm_invariant 0 0 10
    (List.Perm.swap (⟨"p", "s", "c", "x", 2, -3, 4, 0⟩ : SpaceDiff)
      ⟨"p", "s", "c", "x", 1, 5, 4, 0⟩ [])

/-- C7: for every well-formed billing instruction (`from < to`, the section 3
invariant of `BillingInstruction`) whose `(provider, space)` has no snapshot
recorded at `from`, the handler returns the `MissingSnapshot` error — it
neither succeeds nor throws — and performs no write: the stores are returned
unchanged, so no usage record and no snapshot record is created. -/
theorem handleSpaceBillingInstruction_missingSnapshot
    (ins : SpaceBillingInstruction) (st : Stores) (h1 : ins.from' < ins.to')
    (h2 : storeGet ⟨ins.provider, ins.space, ins.from'⟩ st.snapshots
      = (none : Option Int)) :
    handleSpaceBillingInstruction ins st = (.error .missingSnapshot, st) := by
  simp [handleSpaceBillingInstruction, h1, h2]

theorem handleSpaceBillingInstruction_missingSnapshot_witness :
    handleSpaceBillingInstruction ⟨"cust", "acct", "prod", "prov", "space", 0, 1⟩
        ⟨[], [], []⟩
      = (.error .missingSnapshot, ⟨[], [], []⟩) :=
  handleSpaceBillingInstruction_missingSnapshot
    ⟨"cust", "acct", "prod", "prov", "space", 0, 1⟩ ⟨[], [], []⟩ (by decide) rfl

/-- C8: for every start size `≥ 0` and every interval `[from, to)` with
`from < to`, the Usage Integrator on an empty diff set returns usage
`startSize × (to − from)` and end size `startSize`. -/
theorem calculatePeriodUsage_empty (s f t : Int) (hs : 0 ≤ s) (hft : f < t) :
    calculatePeriodUsage s [] f t = (s * (t - f), s) := by
  rw [calculatePeriodUsage_closed]
  simp [weightedSum, changeSum]

theorem calculatePeriodUsage_empty_witness :
    calculatePeriodUsage 5 [] 0 10 = (5 * (10 - 0), 5) :=
  calculatePeriodUsage_empty 5 0 10 (by decide) (by decide)

/-- C9: whenever an SQS event's record list does not contain exactly one
record, both queue-message handlers return a response with status code 400
and perform no effect at all: no message decoding and no store or service
operation (the effect trace is empty). -/
theorem queue_handlers_reject_non_single (ρ : Type)
    (decodeF : String → ρ) (eventsF : ρ → Except String String)
    (records : List String) (h : records.length ≠ 1) :
    handleFilecoinSubmitMessage decodeF eventsF records
      = (⟨400, "Expected 1 sqsEvent per invocation but received "
            ++ toString records.length⟩, [])
    ∧ handlePieceOfferMessage decodeF eventsF records
      = (⟨400, "Expected 1 sqsEvent per invocation but received "
            ++ toString records.length⟩, []) := by
  constructor
  · rw [handleFilecoinSubmitMessage, dif_pos h]
  · rw [handlePieceOfferMessage, dif_pos h]

theorem queue_handlers_reject_non_single_witness :
    handleFilecoinSubmitMessage (fun b => b) (fun _ => .ok "done") []
      = (⟨400, "Expected 1 sqsEvent per invocation but received "
            ++ toString ([] : List String).length⟩, [])
    ∧ handlePieceOfferMessage (fun b => b) (fun _ => .ok "done") []
      = (⟨400, "Expected 1 sqsEvent per invocation but received "
            ++ toString ([] : List String).length⟩, []) :=
  queue_handlers_reject_non_single String (fun b => b) (fun _ => .ok "done") []
    (by decide)

/-- C10: calling `putMany` on the delegations table with zero delegations
returns without performing any operation: the bucket receives no write, no
`BatchWriteItemCommand` is sent to DynamoDB, and the state of both stores is
unchanged. -/
theorem putMany_empty_noop (tableName : String) (st : DelegationsTableState) :
    (putMany tableName [] st).bucket = st.bucket
    ∧ (putMany tableName [] st).sent = st.sent
    ∧ putMany tableName [] st = st :=
  ⟨rfl, rfl, rfl⟩

end W3Infra
